import Mathlib

/-!
Verification of the constext/coalext context-combinator library.

The library pairs two Go `context.Context` values into one derived context.
Three variants appear in the repository:
  * `constext.Cons` (constext.go) — the current pairwise combinator,
  * `coalext.Union` (coalext.go) — the union combinator,
  * `constextHist.Cons` (the historical pairwise combinator).

We embed each constructor, the shared cancel state machine, the deadline
arbitration and the value lookup as pure Lean functions over snapshots of the
two parent contexts, and prove the specification claims about them.
-/

/-- Go `error` values relevant to the combinator: `context.Canceled`,
`context.DeadlineExceeded`, or any other parent-supplied error
(distinguished only by identity, here an index). -/
inductive GoError where
  | canceled
  | deadlineExceeded
  | other (n : Nat)
deriving DecidableEq, Repr

/-- Instants of `time.Time`, embedded as integers; `time.Time.Before` is `<`
and `Sub` is subtraction. -/
abbrev Time := Int

/-- A snapshot of a parent `context.Context` at combination time: whether its
`Done()` channel is nil (non-cancelable), its current `Err()`, and its
`Deadline()`. -/
structure Ctx where
  doneNil  : Bool
  err      : Option GoError
  deadline : Option Time
deriving DecidableEq, Repr

/-- The mutable state of a combinator node: whether the `done` channel was
allocated (`make(chan struct\x7b\x7d)` ran), whether it has been closed, whether a
deadline timer is currently armed, and the recorded terminal error. -/
structure NodeState where
  doneAllocated : Bool
  doneClosed    : Bool
  timerArmed    : Bool
  err           : Option GoError
deriving DecidableEq, Repr

/-- The cancel trigger returned by the constructors: either the literal no-op
`func() \x7b\x7d`, or the closure that invokes the node's internal cancel routine
with `context.Canceled`. -/
inductive Trigger where
  | noop
  | cancelCanceled
deriving DecidableEq, Repr

/-- What a constructor returns: the node's state, the cancel trigger, and
whether the watcher goroutine was spawned. -/
structure ConsResult where
  state   : NodeState
  trigger : Trigger
  watcher : Bool
deriving DecidableEq, Repr

/-- Go `interface\x7b\x7d` values as seen by `Value`: Go's untyped nil or a
concrete value (distinguished by an index). -/
inductive GoVal where
  | nil
  | val (n : Nat)
deriving DecidableEq, Repr

/-- Keys passed to `Value`. -/
abbrev Key := Nat

/-- A context's `Value` method as a pure lookup function. -/
abbrev Lookup := Key → GoVal

namespace constext

/-- `constext.cancel` (constext.go): panics when called with a nil error
before touching state; otherwise, if the node is still live, records the
error, closes the done channel and disarms the timer; if already terminal it
is a no-op. Closing an unallocated (nil) done channel panics after the error
assignment. Returns the resulting state and whether the call panicked. -/
def cancel (cc : NodeState) (e : Option GoError) : NodeState × Bool :=
  match e with
  | none => (cc, true)
  | some err =>
    if cc.err = none then
      if cc.doneAllocated then
        ({ cc with err := some err, doneClosed := true, timerArmed := false }, false)
      else
        ({ cc with err := some err }, true)
    else
      (cc, false)

/-- Invoking the returned cancel trigger on a node state. -/
def runTrigger (t : Trigger) (cc : NodeState) : NodeState × Bool :=
  match t with
  | .noop => (cc, false)
  | .cancelCanceled => cancel cc (some .canceled)

/-- `constext.Deadline` (constext.go): none/none gives none, one present
gives that one, both present gives the one that is `Before` the other
(ties return the cdr's). -/
def Deadline (car cdr : Ctx) : Option Time :=
  match car.deadline, cdr.deadline with
  | none,   none   => none
  | some h, none   => some h
  | none,   some t => some t
  | some h, some t => if h < t then some h else some t

/-- `constext.Err`: the recorded terminal error, read under the lock. -/
def Err (cc : NodeState) : Option GoError :=
  cc.err

/-- `constext.Value` (constext.go): the car's value when non-nil, otherwise
the cdr's. -/
def Value (car cdr : Lookup) (key : Key) : GoVal :=
  let v := car key
  if v ≠ GoVal.nil then v else cdr key

/-- `constext.Cons` (constext.go), evaluated at clock instant `now`: fast
path when both parents return a nil `Done()`; otherwise allocate the done
channel, adopt an already-terminal parent's error, cancel immediately on an
expired deadline, and otherwise spawn the watcher. No timer is armed. -/
def Cons (now : Time) (l r : Ctx) : ConsResult :=
  let s0 : NodeState :=
    { doneAllocated := false, doneClosed := false, timerArmed := false, err := none }
  if l.doneNil && r.doneNil then
    { state := s0, trigger := .noop, watcher := false }
  else
    let s1 := { s0 with doneAllocated := true }
    if l.err.isSome then
      { state := { s1 with err := l.err }, trigger := .cancelCanceled, watcher := false }
    else if r.err.isSome then
      { state := { s1 with err := r.err }, trigger := .cancelCanceled, watcher := false }
    else
      match Deadline l r with
      | some dl =>
        if dl - now ≤ 0 then
          { state := (cancel s1 (some .deadlineExceeded)).1,
            trigger := .cancelCanceled, watcher := false }
        else
          { state := s1, trigger := .cancelCanceled, watcher := true }
      | none =>
        { state := s1, trigger := .cancelCanceled, watcher := true }

end constext

namespace coalext

/-- `unionCtx.cancel` (coalext.go): textually the same state machine as
`constext.cancel` — panic on nil error, set-once otherwise. -/
def cancel (uc : NodeState) (e : Option GoError) : NodeState × Bool :=
  match e with
  | none => (uc, true)
  | some err =>
    if uc.err = none then
      if uc.doneAllocated then
        ({ uc with err := some err, doneClosed := true, timerArmed := false }, false)
      else
        ({ uc with err := some err }, true)
    else
      (uc, false)

/-- Invoking a cancel trigger returned by `Union`. -/
def runTrigger (t : Trigger) (uc : NodeState) : NodeState × Bool :=
  match t with
  | .noop => (uc, false)
  | .cancelCanceled => cancel uc (some .canceled)

/-- The armed deadline timer firing: `time.AfterFunc(d, func() \x7b
uc.cancel(DeadlineExceeded) \x7d)` runs its callback, which is a no-op once the
timer was stopped (disarmed). -/
def timerFire (uc : NodeState) : NodeState × Bool :=
  if uc.timerArmed then cancel uc (some .deadlineExceeded) else (uc, false)

/-- `unionCtx.Deadline` (coalext.go): the head's deadline whenever the head
has one, otherwise the tail's — no comparison of the two instants. -/
def Deadline (head tail : Ctx) : Option Time :=
  match head.deadline with
  | some d => some d
  | none   => tail.deadline

/-- `unionCtx.Err`: the recorded terminal error, read under the lock. -/
def Err (uc : NodeState) : Option GoError :=
  uc.err

/-- `unionCtx.Value` (coalext.go): the head's value when non-nil, otherwise
the tail's. -/
def Value (head tail : Lookup) (key : Key) : GoVal :=
  let v := head key
  if v ≠ GoVal.nil then v else tail key

/-- `coalext.Union` (coalext.go), evaluated at clock instant `now`. The fast
path tests `uc.head.Done() == nil && uc.head.Done() == nil` — the head twice,
exactly as the source does — and returns the cancel-calling trigger. On the
slow path it allocates the done channel, adopts an already-terminal parent's
error, cancels immediately on an expired deadline, otherwise arms the
deadline timer via `time.AfterFunc` and spawns the watcher. -/
def Union (now : Time) (l r : Ctx) : ConsResult :=
  let s0 : NodeState :=
    { doneAllocated := false, doneClosed := false, timerArmed := false, err := none }
  if l.doneNil && l.doneNil then
    { state := s0, trigger := .cancelCanceled, watcher := false }
  else
    let s1 := { s0 with doneAllocated := true }
    if l.err.isSome then
      { state := { s1 with err := l.err }, trigger := .cancelCanceled, watcher := false }
    else if r.err.isSome then
      { state := { s1 with err := r.err }, trigger := .cancelCanceled, watcher := false }
    else
      match Deadline l r with
      | some dl =>
        if dl - now ≤ 0 then
          { state := (cancel s1 (some .deadlineExceeded)).1,
            trigger := .cancelCanceled, watcher := false }
        else
          { state := { s1 with timerArmed := true }, trigger := .cancelCanceled, watcher := true }
      | none =>
        { state := s1, trigger := .cancelCanceled, watcher := true }

end coalext

namespace constextHist

/-- `constext.cancel` in the historical constext source: identical state
machine to the current one. -/
def cancel (cc : NodeState) (e : Option GoError) : NodeState × Bool :=
  match e with
  | none => (cc, true)
  | some err =>
    if cc.err = none then
      if cc.doneAllocated then
        ({ cc with err := some err, doneClosed := true, timerArmed := false }, false)
      else
        ({ cc with err := some err }, true)
    else
      (cc, false)

/-- The armed deadline timer firing in the historical constext source. -/
def timerFire (cc : NodeState) : NodeState × Bool :=
  if cc.timerArmed then cancel cc (some .deadlineExceeded) else (cc, false)

/-- `constext.Deadline` in the historical constext source: identical fourfold
case split to the current one. -/
def Deadline (car cdr : Ctx) : Option Time :=
  match car.deadline, cdr.deadline with
  | none,   none   => none
  | some h, none   => some h
  | none,   some t => some t
  | some h, some t => if h < t then some h else some t

/-- `Cons` in the historical constext source: the fast path tests
`cc.car.Done() == nil && cc.car.Done() == nil` — the car twice, as written —
and returns the cancel-calling trigger; the slow path arms the deadline
timer before spawning the watcher. -/
def Cons (now : Time) (l r : Ctx) : ConsResult :=
  let s0 : NodeState :=
    { doneAllocated := false, doneClosed := false, timerArmed := false, err := none }
  if l.doneNil && l.doneNil then
    { state := s0, trigger := .cancelCanceled, watcher := false }
  else
    let s1 := { s0 with doneAllocated := true }
    if l.err.isSome then
      { state := { s1 with err := l.err }, trigger := .cancelCanceled, watcher := false }
    else if r.err.isSome then
      { state := { s1 with err := r.err }, trigger := .cancelCanceled, watcher := false }
    else
      match Deadline l r with
      | some dl =>
        if dl - now ≤ 0 then
          { state := (cancel s1 (some .deadlineExceeded)).1,
            trigger := .cancelCanceled, watcher := false }
        else
          { state := { s1 with timerArmed := true }, trigger := .cancelCanceled, watcher := true }
      | none =>
        { state := s1, trigger := .cancelCanceled, watcher := true }

end constextHist

/-- Deadline arbitration as the spec words it (§4.2): absent/absent gives
absent, one present gives that one, both present gives the earlier of the
two. Stated from the spec for refinement comparison, not from the source. -/
def specDeadlineMerge (a b : Option Time) : Option Time :=
  match a, b with
  | none,   none   => none
  | some d, none   => some d
  | none,   some d => some d
  | some x, some y => some (min x y)

/-- A non-cancelable, live, deadline-free parent (e.g. `context.Background()`). -/
def bgCtx : Ctx :=
  { doneNil := true, err := none, deadline := none }

/-- A cancelable, live, deadline-free parent (e.g. fresh `context.WithCancel`). -/
def liveCtx : Ctx :=
  { doneNil := false, err := none, deadline := none }

/-- A cancelable parent that is already canceled at combination time. -/
def canceledCtx : Ctx :=
  { doneNil := false, err := some GoError.canceled, deadline := none }

/-- A cancelable, live parent whose deadline is instant 10. -/
def deadline10Ctx : Ctx :=
  { doneNil := false, err := none, deadline := some 10 }

/-- A cancelable, live parent whose deadline is instant 2. -/
def deadline2Ctx : Ctx :=
  { doneNil := false, err := none, deadline := some 2 }

/-- A cancelable, live parent whose deadline is instant 1. -/
def deadline1Ctx : Ctx :=
  { doneNil := false, err := none, deadline := some 1 }

/-- C1 counterexample: with a head deadline of 2 and an earlier tail deadline
of 1, `unionCtx.Deadline` reports 2, not the earlier of the two instants that
the claim requires. -/
theorem union_deadline_not_earliest :
    coalext.Deadline deadline2Ctx deadline1Ctx = some 2 ∧
    coalext.Deadline deadline2Ctx deadline1Ctx ≠ specDeadlineMerge (some 2) (some 1) := by
  constructor
  · rfl
  · decide

/-- C1 (amended): `constext.Deadline` realises the spec's arbitration exactly
(absent/absent gives absent, one present gives that one, both present gives
the earlier); `unionCtx.Deadline` instead reports the head's deadline
whenever the head has one, and only otherwise the tail's. -/
theorem deadline_arbitration_amended (l r : Ctx) :
    constext.Deadline l r = specDeadlineMerge l.deadline r.deadline ∧
    (∀ d : Time, l.deadline = some d → coalext.Deadline l r = some d) ∧
    (l.deadline = none → coalext.Deadline l r = r.deadline) := by
  refine ⟨?_, ?_, ?_⟩
  · unfold constext.Deadline specDeadlineMerge
    rcases l.deadline with _ | a <;> rcases r.deadline with _ | b <;> simp
    by_cases h : a < b
    · simp [h, min_eq_left h.le]
    · simp [h, min_eq_right (le_of_not_lt h)]
  · intro d hd
    simp [coalext.Deadline, hd]
  · intro h
    simp [coalext.Deadline, h]

/-- Witness for C1's amended theorem at concrete parents. -/
theorem deadline_arbitration_amended_witness :
    constext.Deadline deadline2Ctx deadline1Ctx = specDeadlineMerge (some 2) (some 1) ∧
    coalext.Deadline deadline2Ctx deadline1Ctx = some 2 :=
  ⟨(deadline_arbitration_amended deadline2Ctx deadline1Ctx).1,
   (deadline_arbitration_amended deadline2Ctx deadline1Ctx).2.1 2 rfl⟩

/-- C2: the source's fast-path guard in `Union` (and the historical `Cons`)
tests the head parent's `Done()` twice, so with a non-cancelable head and a
cancelable tail the fast path is still taken — no done channel is allocated
and no watcher spawned — although one parent is cancelable; the current
`Cons` allocates the channel and spawns the watcher on the same input. -/
theorem union_fast_path_ignores_tail :
    liveCtx.doneNil = false ∧
    (coalext.Union 0 bgCtx liveCtx).state.doneAllocated = false ∧
    (coalext.Union 0 bgCtx liveCtx).watcher = false ∧
    (constextHist.Cons 0 bgCtx liveCtx).state.doneAllocated = false ∧
    (constextHist.Cons 0 bgCtx liveCtx).watcher = false ∧
    (constext.Cons 0 bgCtx liveCtx).state.doneAllocated = true ∧
    (constext.Cons 0 bgCtx liveCtx).watcher = true := by
  decide

/-- C3 counterexample: for two non-cancelable, non-deadlined parents,
`Union`'s fast path returns the cancel-calling trigger, and invoking it
faults (it closes the unallocated done channel) after recording `Canceled`
into the node — it is not a safe no-op. -/
theorem union_noncancelable_trigger_faults :
    (coalext.Union 0 bgCtx bgCtx).trigger = Trigger.cancelCanceled ∧
    (coalext.runTrigger (coalext.Union 0 bgCtx bgCtx).trigger
        (coalext.Union 0 bgCtx bgCtx).state).2 = true ∧
    coalext.Err (coalext.runTrigger (coalext.Union 0 bgCtx bgCtx).trigger
        (coalext.Union 0 bgCtx bgCtx).state).1 = some GoError.canceled := by
  decide

/-- C3 (amended): for non-cancelable, non-deadlined parent pairs, Pair-mode
returns a live, never-closing node with a true no-op trigger — any number of
invocations leaves the state unchanged and never faults — while Union-mode's
fast-path trigger is the cancel-calling closure: the node stays live only
until the trigger is invoked, and the invocation records `Canceled` and
faults. -/
theorem noncancelable_pair_amended (now : Time) (l r : Ctx)
    (hl : l.doneNil = true) (hr : r.doneNil = true)
    (hle : l.err = none) (hre : r.err = none)
    (hld : l.deadline = none) (hrd : r.deadline = none) :
    (constext.Cons now l r).trigger = Trigger.noop ∧
    constext.Err (constext.Cons now l r).state = none ∧
    (constext.Cons now l r).state.doneClosed = false ∧
    (∀ n : Nat,
      (fun st => (constext.runTrigger Trigger.noop st).1)^[n] (constext.Cons now l r).state
        = (constext.Cons now l r).state) ∧
    (∀ st : NodeState, (constext.runTrigger Trigger.noop st).2 = false) ∧
    (coalext.Union now l r).trigger = Trigger.cancelCanceled ∧
    coalext.Err (coalext.Union now l r).state = none ∧
    (coalext.Union now l r).state.doneClosed = false ∧
    (coalext.runTrigger (coalext.Union now l r).trigger (coalext.Union now l r).state).2 = true ∧
    coalext.Err (coalext.runTrigger (coalext.Union now l r).trigger
        (coalext.Union now l r).state).1 = some GoError.canceled := by
  refine ⟨?_, ?_, ?_, ?_, ?_, ?_, ?_, ?_, ?_, ?_⟩ <;>
    simp [constext.Cons, coalext.Union, constext.Err, coalext.Err,
      constext.runTrigger, coalext.runTrigger, constext.cancel, coalext.cancel,
      hl, hr, hle, hre, hld, hrd]
  intro n
  exact Function.iterate_fixed rfl n

/-- Witness for C3's amended theorem at two background parents. -/
theorem noncancelable_pair_amended_witness :
    (constext.Cons 0 bgCtx bgCtx).trigger = Trigger.noop ∧
    (coalext.runTrigger (coalext.Union 0 bgCtx bgCtx).trigger
        (coalext.Union 0 bgCtx bgCtx).state).2 = true := by
  have h := noncancelable_pair_amended 0 bgCtx bgCtx rfl rfl rfl rfl rfl rfl
  exact ⟨h.1, h.2.2.2.2.2.2.2.2.1⟩

/-- C4: combining an already-canceled parent with a live cancelable one
allocates the done channel and records the parent's terminal error, but never
closes the channel — `Err()` is non-nil while `Done()` can never fire, in
both the pairwise and the union variant. -/
theorem precanceled_parent_err_without_done :
    (constext.Cons 0 canceledCtx liveCtx).state.doneAllocated = true ∧
    constext.Err (constext.Cons 0 canceledCtx liveCtx).state = some GoError.canceled ∧
    (constext.Cons 0 canceledCtx liveCtx).state.doneClosed = false ∧
    (coalext.Union 0 canceledCtx liveCtx).state.doneAllocated = true ∧
    coalext.Err (coalext.Union 0 canceledCtx liveCtx).state = some GoError.canceled ∧
    (coalext.Union 0 canceledCtx liveCtx).state.doneClosed = false := by
  decide

/-- C5 counterexample: with a live cancelable deadline-bearing parent and the
deadline strictly in the future, the current `Cons` leaves the timer unarmed
while `Union` arms it — the opposite of the claimed Pair/Union split. -/
theorem timer_arming_swapped :
    (constext.Cons 0 deadline10Ctx bgCtx).state.timerArmed = false ∧
    (constext.Cons 0 deadline10Ctx bgCtx).watcher = true ∧
    (coalext.Union 0 deadline10Ctx bgCtx).state.timerArmed = true := by
  decide

/-- C5 (amended): with both parents live and an effective deadline strictly
in the future, the current `Cons` arms no timer and relies on the watcher
whenever at least one parent is cancelable; `Union` and the historical `Cons`
arm the deadline timer — whose firing performs the `DeadlineExceeded`
transition — only when the head/car parent is cancelable: with a
non-cancelable head their duplicated-head fast path returns first, arming no
timer and spawning no watcher even when the cancelable tail bears the
deadline. -/
theorem timer_arming_amended (now : Time) (l r : Ctx) (d : Time)
    (hle : l.err = none) (hre : r.err = none) (hfut : now < d) :
    ((l.doneNil && r.doneNil) = false → constext.Deadline l r = some d →
      (constext.Cons now l r).state.timerArmed = false ∧
      (constext.Cons now l r).watcher = true) ∧
    (l.doneNil = false → coalext.Deadline l r = some d →
      (coalext.Union now l r).state.timerArmed = true ∧
      (coalext.Union now l r).watcher = true ∧
      coalext.Err (coalext.timerFire (coalext.Union now l r).state).1
        = some GoError.deadlineExceeded ∧
      (coalext.timerFire (coalext.Union now l r).state).2 = false) ∧
    (l.doneNil = false → constextHist.Deadline l r = some d →
      (constextHist.Cons now l r).state.timerArmed = true ∧
      (constextHist.Cons now l r).watcher = true) ∧
    (l.doneNil = true →
      (coalext.Union now l r).state.timerArmed = false ∧
      (coalext.Union now l r).watcher = false ∧
      (constextHist.Cons now l r).state.timerArmed = false ∧
      (constextHist.Cons now l r).watcher = false) := by
  have hpos : ¬ (d - now ≤ 0) := by
    rw [sub_nonpos]
    exact not_le.mpr hfut
  refine ⟨?_, ?_, ?_, ?_⟩
  · intro hc hdl
    simp [constext.Cons, hle, hre, hc, hdl, hpos]
  · intro hc hdl
    simp [coalext.Union, coalext.Err, coalext.timerFire, coalext.cancel,
      hle, hre, hc, hdl, hpos]
  · intro hc hdl
    simp [constextHist.Cons, hle, hre, hc, hdl, hpos]
  · intro hc
    simp [coalext.Union, constextHist.Cons, hc]

/-- Witness for C5's amended theorem: deadline 10 seen at instant 0, once
with a cancelable deadline-bearing head (timer armed in Union-mode, not in
Pair-mode) and once with a non-cancelable head and the deadline on the
cancelable tail (Union-mode's fast path arms nothing). -/
theorem timer_arming_amended_witness :
    (constext.Cons 0 deadline10Ctx liveCtx).state.timerArmed = false ∧
    (coalext.Union 0 deadline10Ctx liveCtx).state.timerArmed = true ∧
    (coalext.Union 0 bgCtx deadline10Ctx).state.timerArmed = false ∧
    (coalext.Union 0 bgCtx deadline10Ctx).watcher = false := by
  have h := timer_arming_amended 0 deadline10Ctx liveCtx 10 rfl rfl (by decide)
  have h2 := timer_arming_amended 0 bgCtx deadline10Ctx 10 rfl rfl (by decide)
  exact ⟨(h.1 rfl rfl).1, (h.2.1 rfl rfl).1, (h2.2.2.2 rfl).1, (h2.2.2.2 rfl).2.1⟩

/-- C6: because `Union`'s fast-path guard tests the head twice, combining a
non-cancelable head with an already-canceled tail takes the fast path: the
tail's terminal error is never adopted and the node reports `Err() = nil`,
although the claim requires immediate terminality with the tail's exact
error; the current `Cons` adopts it on the same input. -/
theorem union_drops_tail_terminal_error :
    canceledCtx.err = some GoError.canceled ∧
    coalext.Err (coalext.Union 0 bgCtx canceledCtx).state = none ∧
    (coalext.Union 0 bgCtx canceledCtx).state.doneAllocated = false ∧
    (coalext.Union 0 bgCtx canceledCtx).watcher = false ∧
    constext.Err (constext.Cons 0 bgCtx canceledCtx).state = some GoError.canceled ∧
    (constext.Cons 0 bgCtx canceledCtx).watcher = false := by
  decide

/-- C7: the cancel transition is set-once. The first successful transition on
a live allocated node records its error, closes the done channel and disarms
the timer; any later transition with any non-nil error leaves the state
exactly unchanged and does not fault, in both variants. -/
theorem cancel_at_most_once (s : NodeState) (e e2 : GoError)
    (hlive : s.err = none) (halloc : s.doneAllocated = true) :
    constext.Err (constext.cancel s (some e)).1 = some e ∧
    (constext.cancel s (some e)).1.doneClosed = true ∧
    (constext.cancel s (some e)).1.timerArmed = false ∧
    constext.cancel (constext.cancel s (some e)).1 (some e2)
      = ((constext.cancel s (some e)).1, false) ∧
    coalext.cancel (coalext.cancel s (some e)).1 (some e2)
      = ((coalext.cancel s (some e)).1, false) := by
  simp [constext.cancel, coalext.cancel, constext.Err, hlive, halloc]

/-- A live node with allocated done channel and an armed timer. -/
def liveNode : NodeState :=
  { doneAllocated := true, doneClosed := false, timerArmed := true, err := none }

/-- Witness for C7 on a live node, canceled first with `Canceled` and then
raced by `DeadlineExceeded`. -/
theorem cancel_at_most_once_witness :
    constext.Err (constext.cancel liveNode (some GoError.canceled)).1
        = some GoError.canceled ∧
    constext.cancel (constext.cancel liveNode (some GoError.canceled)).1
        (some GoError.deadlineExceeded)
      = ((constext.cancel liveNode (some GoError.canceled)).1, false) := by
  have h := cancel_at_most_once liveNode GoError.canceled GoError.deadlineExceeded rfl rfl
  exact ⟨h.1, h.2.2.2.1⟩

/-- C8: value lookup is left-biased — the car's value is returned whenever it
is present (non-nil), otherwise the cdr's result is returned as-is; the union
variant behaves identically, and nesting one combinator inside another keeps
the left-biased precedence (the two-step rule reassociates). -/
theorem value_left_bias (car cdr sec : Lookup) (k : Key) :
    (car k ≠ GoVal.nil → constext.Value car cdr k = car k) ∧
    (car k = GoVal.nil → constext.Value car cdr k = cdr k) ∧
    coalext.Value car cdr k = constext.Value car cdr k ∧
    constext.Value (constext.Value car cdr) sec k
      = constext.Value car (constext.Value cdr sec) k := by
  refine ⟨?_, ?_, rfl, ?_⟩
  · intro h
    simp [constext.Value, h]
  · intro h
    simp [constext.Value, h]
  · by_cases h : car k = GoVal.nil <;> simp [constext.Value, h]

/-- A lookup mapping every key to the concrete value 1. -/
def lookupOne : Lookup := fun _ => GoVal.val 1

/-- A lookup mapping every key to the concrete value 2. -/
def lookupTwo : Lookup := fun _ => GoVal.val 2

/-- A lookup mapping every key to Go's nil. -/
def lookupNil : Lookup := fun _ => GoVal.nil

/-- Witness for C8: on colliding keys the car's value 1 shadows the cdr's 2. -/
theorem value_left_bias_witness :
    constext.Value lookupOne lookupTwo 0 = lookupOne 0 :=
  (value_left_bias lookupOne lookupTwo lookupNil 0).1 (by decide)

/-- C9: invoking the internal cancel routine with a nil error panics before
touching any state — for every node state the state is returned exactly
unchanged together with the fault flag, in both variants. -/
theorem cancel_nil_error_fails_loudly (s : NodeState) :
    constext.cancel s none = (s, true) ∧ coalext.cancel s none = (s, true) :=
  ⟨rfl, rfl⟩

/-- C10: a Go-nil value stored under a key in the car is indistinguishable
from absence — lookup falls through to the cdr, so a nil in the primary can
never shadow the secondary's value, in both variants. -/
theorem nil_value_never_shadows (car cdr : Lookup) (k : Key)
    (h : car k = GoVal.nil) :
    constext.Value car cdr k = cdr k ∧ coalext.Value car cdr k = cdr k := by
  constructor <;> simp [constext.Value, coalext.Value, h]

/-- Witness for C10: the all-nil car falls through to the cdr's value 2. -/
theorem nil_value_never_shadows_witness :
    constext.Value lookupNil lookupTwo 0 = lookupTwo 0 :=
  (nil_value_never_shadows lookupNil lookupTwo 0 rfl).1
